import Mathlib

/-!
Verification development for the `dtiam` IAM CLI's policy-statement parser and
effective-permissions engine (`src/dtiam/utils/permissions.py` and
`src/dtiam/commands/raci.py`), shallowly embedded in Lean.

Conventions used throughout:
* Python dicts returned by the data-access handlers become Lean structures with
  `Option` fields; `dict.get(k, d)` becomes `Option.getD`.
* A falsy handler result (`None` or `{}`) is modelled as `none`.
* Python's `re` whitespace class `\s` and `str.strip()` are modelled over the
  six ASCII whitespace characters (space, `\t`, `\n`, `\r`, `\x0b`, `\x0c`);
  statement queries handled by the CLI are ASCII.
* `re.IGNORECASE` matching of the ASCII keywords `ALLOW|DENY|WHERE` is modelled
  by uppercasing candidate characters.
-/

namespace DtIam

/-- Python's `\s` / `str.strip()` whitespace, ASCII fragment. -/
def isPySpace (c : Char) : Bool :=
  c = ' ' || c = '\t' || c = '\n' || c = '\r' || c = '\x0b' || c = '\x0c'

/-- Python `str.split(sep)` for a one-character separator: splits into pieces
between separator occurrences, keeping empty pieces. -/
def pySplit (sep : Char) : List Char → List (List Char)
  | [] => [[]]
  | c :: cs =>
    if c = sep then [] :: pySplit sep cs
    else
      match pySplit sep cs with
      | [] => [[c]]
      | p :: ps => (c :: p) :: ps

/-- Python `str.strip()`: drop leading and trailing whitespace. -/
def pyStrip (cs : List Char) : List Char :=
  ((cs.dropWhile isPySpace).reverse.dropWhile isPySpace).reverse

/-- Case-insensitive literal match of an (uppercase ASCII) pattern prefix,
returning the remainder of the input: models matching a literal like `ALLOW`
under `re.IGNORECASE`. -/
def dropPrefixCI : List Char → List Char → Option (List Char)
  | [], cs => some cs
  | _ :: _, [] => none
  | p :: ps, c :: cs => if c.toUpper = p then dropPrefixCI ps cs else none

/-- The greedy repetition `(?:\s*,\s*[^\s]+)*` of the clause regex.  Returns
the raw matched characters (separators included, as captured by group 2) and
the remaining input.  Each successful iteration consumes optional whitespace,
a comma, optional whitespace and a nonempty run of non-whitespace characters;
a failed iteration consumes nothing and stops the repetition (the regex never
needs to backtrack past a successful iteration because the rest of the
pattern can always match the empty string).  Structured on a fuel argument so
that the kernel can evaluate it; every successful iteration consumes at least
the comma, so any fuel of at least the input length computes the repetition's
fixpoint (`actionIters_fuel` below makes this precise). -/
def actionIters : Nat → List Char → List Char × List Char
  | 0, r => ([], r)
  | fuel + 1, r =>
    match r.dropWhile isPySpace with
    | [] => ([], r)
    | x :: b =>
      if x = ',' then
        let w2 := b.takeWhile isPySpace
        let c := b.dropWhile isPySpace
        let tok := c.takeWhile (fun y => !isPySpace y)
        let d := c.dropWhile (fun y => !isPySpace y)
        if tok.isEmpty then ([], r)
        else
          let (m, rest) := actionIters fuel d
          (r.takeWhile isPySpace ++ x :: (w2 ++ tok ++ m), rest)
      else ([], r)

/-- Greedy backtracking of `\s+(.+)` when `(.+)` initially fails because the
whole remainder is whitespace: `\s+` gives characters back from the right, and
`(.+)` then matches the longest run of non-newline characters from the first
position (scanning from the right) holding a non-newline character.  The input
is the whitespace run minus its first character (which `\s+` always keeps). -/
def whereBacktrack : List Char → Option (List Char)
  | [] => none
  | c :: cs =>
    match whereBacktrack cs with
    | some g => some g
    | none =>
      if c = '\n' then none
      else some ((c :: cs).takeWhile (fun x => x ≠ '\n'))

/-- The optional tail `(?:WHERE\s+(.+))?` of the clause regex, applied at a
position where all preceding whitespace has been consumed.  Returns the text
captured by group 3, or `none` when the optional group matches empty. -/
def matchWhere (r : List Char) : Option (List Char) :=
  match dropPrefixCI "WHERE".data r with
  | none => none
  | some t =>
    let w := t.takeWhile isPySpace
    let rest := t.dropWhile isPySpace
    if w.isEmpty then none
    else if rest.isEmpty then whereBacktrack (w.drop 1)
    else some (rest.takeWhile (fun x => x ≠ '\n'))

/-- Model of `re.match` of the clause pattern
`(ALLOW|DENY)\s+([^\s]+(?:\s*,\s*[^\s]+)*)\s*(?:WHERE\s+(.+))?` with
`re.IGNORECASE`, specialised to its deterministic backtracking behaviour:
the effect keyword (returned uppercased, as `effect = match.group(1).upper()`
produces), the raw text of group 2, and group 3 if the `WHERE` branch
participates. -/
def matchClauseAfterEffect (eff : String) (r : List Char) :
    Option (String × List Char × Option (List Char)) :=
  let r1 := r.dropWhile isPySpace
  if (r.takeWhile isPySpace).isEmpty then none
  else
    let tok := r1.takeWhile (fun c => !isPySpace c)
    let r2 := r1.dropWhile (fun c => !isPySpace c)
    if tok.isEmpty then none
    else
      let (more, r3) := actionIters r2.length r2
      some (eff, tok ++ more, matchWhere (r3.dropWhile isPySpace))

def matchClause (cs : List Char) :
    Option (String × List Char × Option (List Char)) :=
  match dropPrefixCI "ALLOW".data cs with
  | some r => matchClauseAfterEffect "ALLOW" r
  | none =>
    match dropPrefixCI "DENY".data cs with
    | some r => matchClauseAfterEffect "DENY" r
    | none => none

/-- The `PERMISSION_PATTERNS` lookup table of `permissions.py`. -/
def PERMISSION_PATTERNS : List (String × String) :=
  [("settings:objects:read", "Read settings objects"),
   ("settings:objects:write", "Write settings objects"),
   ("settings:schemas:read", "Read settings schemas"),
   ("environment:roles:manage", "Manage environment roles"),
   ("account:users:read", "Read account users"),
   ("account:users:write", "Write account users"),
   ("account:groups:read", "Read account groups"),
   ("account:groups:write", "Write account groups"),
   ("account:policies:read", "Read account policies"),
   ("account:policies:write", "Write account policies")]

/-- Lookup `PERMISSION_PATTERNS.get(action, action)`. -/
def descriptionFor (action : String) : String :=
  (PERMISSION_PATTERNS.lookup action).getD action

/-- One parsed permission statement, as built by `parse_statement_query`:
`{"effect": ..., "action": ..., "description": ..., "conditions"?: ...}`. -/
structure Perm where
  effect : String
  action : String
  description : String
  conditions : Option String := none
deriving DecidableEq, Repr

/-- The entries contributed by one (already stripped) clause: empty when the
regex does not match, otherwise one entry per comma-split action, sharing the
clause's effect and conditions (`perm["conditions"]` is only set when the
captured conditions text is truthy, i.e. nonempty). -/
def clauseEntries (stmt : List Char) : List Perm :=
  match matchClause stmt with
  | none => []
  | some (eff, actsChars, condChars) =>
    ((pySplit ',' actsChars).map pyStrip).map fun a =>
      { effect := eff
        action := ⟨a⟩
        description := descriptionFor ⟨a⟩
        conditions :=
          match condChars with
          | none => none
          | some c => if c.isEmpty then none else some ⟨c⟩ }

/-- Function `parse_statement_query`: split on `;`, strip each piece, drop empty
pieces, and concatenate the entries of each clause in order. -/
def parse_statement_query (statement : String) : List Perm :=
  ((((pySplit ';' statement.data).map pyStrip).filter
      (fun s => !s.isEmpty)).map clauseEntries).flatten

/-! ## Data-access collaborator and entity records -/

/-- A user dict; the engine reads `uid` and `email` with `dict.get`. -/
structure UserRec where
  uid : Option String := none
  email : Option String := none
deriving DecidableEq, Repr

/-- A group dict; the engine reads `uuid` and `name`. -/
structure GroupRec where
  uuid : Option String := none
  name : Option String := none
deriving DecidableEq, Repr

/-- A binding dict; the engine reads `policyUuid` and `boundaryUuid`. -/
structure BindingRec where
  policyUuid : Option String := none
  boundaryUuid : Option String := none
deriving DecidableEq, Repr

/-- A policy dict; the engine reads `uuid`, `name` and `statementQuery`. -/
structure PolicyRec where
  uuid : Option String := none
  name : Option String := none
  statementQuery : Option String := none
deriving DecidableEq, Repr

/-- The data-access collaborator consumed by the engine: the handler calls the
Python code makes (`UserHandler.get`, `UserHandler.get_by_email`,
`UserHandler.get_groups`, `GroupHandler.get`, `GroupHandler.get_by_name`,
`GroupHandler.list`, `PolicyHandler.list`, `BindingHandler.get_for_group`,
`PolicyHandler.get`).  A falsy result (`None`/`{}`) is `none`. -/
structure Fetcher where
  getUser : String → Option UserRec
  getUserByEmail : String → Option UserRec
  getUserGroups : String → List GroupRec
  getGroup : String → Option GroupRec
  getGroupByName : String → Option GroupRec
  listGroups : List GroupRec
  listPolicies : List PolicyRec
  getBindingsForGroup : String → List BindingRec
  getPolicy : String → Option PolicyRec

/-- Soft-failure result union: `{"error": msg}` or the success record. -/
inductive AggResult (α : Type) where
  | error (msg : String)
  | ok (r : α)
deriving DecidableEq, Repr

/-! ## Effective-permission aggregation (`PermissionsCalculator`) -/

/-- Provenance record appended by the user aggregator:
`{"group": ..., "policy": ...}`. -/
structure SourceU where
  group : String
  policy : String
deriving DecidableEq, Repr

/-- Provenance record appended by the group aggregator:
`{"policy": ..., "boundary": ...}`. -/
structure SourceG where
  policy : String
  boundary : Option String
deriving DecidableEq, Repr

/-- An aggregated effective permission with its source list. -/
structure EffPerm (σ : Type) where
  effect : String
  action : String
  description : String
  sources : List σ
deriving DecidableEq, Repr

/-- The aggregation key `f"{perm['effect']}:{perm['action']}"`. -/
def permKey (effect action : String) : String := effect ++ ":" ++ action

/-- One step of the `unique_permissions` loop: if the key is present, append
the source to the existing entry; otherwise insert a new entry at the end
(Python dicts preserve insertion order). -/
def addPerm {σ : Type} (acc : List (String × EffPerm σ)) (p : Perm) (src : σ) :
    List (String × EffPerm σ) :=
  let key := permKey p.effect p.action
  if acc.any (fun kv => kv.1 == key) then
    acc.map fun kv =>
      if kv.1 == key then (kv.1, { kv.2 with sources := kv.2.sources ++ [src] })
      else kv
  else
    acc ++ [(key, { effect := p.effect, action := p.action,
                    description := p.description, sources := [src] })]

/-- The `unique_permissions` insertion-ordered dict, as an association list. -/
def aggregate {σ : Type} (perms : List (Perm × σ)) : List (String × EffPerm σ) :=
  perms.foldl (fun acc ps => addPerm acc ps.1 ps.2) []

/-- The `binding_info` record collected into `all_bindings`. -/
structure BindingInfo where
  group_uuid : String
  group_name : String
  policy_uuid : String
  policy_name : String
  permissions : List Perm
  boundary : Option String
deriving DecidableEq, Repr

/-- Result record of `get_user_effective_permissions`. -/
structure UserEffResult where
  user_uid : String
  user_email : String
  groups : List (Option String × Option String)
  group_count : Nat
  bindings : List BindingInfo
  binding_count : Nat
  effective_permissions : List (EffPerm SourceU)
  permission_count : Nat
deriving DecidableEq, Repr

/-- The `binding_info` entries one group contributes to `all_bindings`:
bindings whose policy lookup is falsy are skipped (`if policy:`). -/
def userGroupBindingInfo (f : Fetcher) (g : GroupRec) : List BindingInfo :=
  (f.getBindingsForGroup (g.uuid.getD "")).filterMap fun b =>
    match f.getPolicy (b.policyUuid.getD "") with
    | none => none
    | some pol =>
      some { group_uuid := g.uuid.getD ""
             group_name := g.name.getD ""
             policy_uuid := b.policyUuid.getD ""
             policy_name := pol.name.getD ""
             permissions := parse_statement_query (pol.statementQuery.getD "")
             boundary := b.boundaryUuid }

/-- The `group_permissions` entries one group contributes, each parsed
permission paired with its `{"group", "policy"}` provenance. -/
def userGroupPerms (f : Fetcher) (g : GroupRec) : List (Perm × SourceU) :=
  (f.getBindingsForGroup (g.uuid.getD "")).flatMap fun b =>
    match f.getPolicy (b.policyUuid.getD "") with
    | none => []
    | some pol =>
      (parse_statement_query (pol.statementQuery.getD "")).map fun perm =>
        (perm, { group := g.name.getD "", policy := pol.name.getD "" })

/-- Method `PermissionsCalculator.get_user_effective_permissions`. -/
def get_user_effective_permissions (f : Fetcher) (user_id : String) :
    AggResult UserEffResult :=
  match (if user_id.data.contains '@' then f.getUserByEmail user_id
         else f.getUser user_id) with
  | none => .error ("User not found: " ++ user_id)
  | some user =>
    let user_uid := user.uid.getD user_id
    let user_email := user.email.getD user_id
    let groups := f.getUserGroups user_uid
    let all_bindings := groups.flatMap (userGroupBindingInfo f)
    let group_permissions := groups.flatMap (userGroupPerms f)
    let unique := aggregate group_permissions
    .ok { user_uid := user_uid
          user_email := user_email
          groups := groups.map fun g => (g.uuid, g.name)
          group_count := groups.length
          bindings := all_bindings
          binding_count := all_bindings.length
          effective_permissions := unique.map (·.2)
          permission_count := unique.length }

/-- Result record of `get_group_effective_permissions`; `bindings` is the raw
binding list from the collaborator. -/
structure GroupEffResult where
  group_uuid : String
  group_name : String
  bindings : List BindingRec
  binding_count : Nat
  effective_permissions : List (EffPerm SourceG)
  permission_count : Nat
deriving DecidableEq, Repr

/-- The `policy_permissions` entries one binding contributes, each parsed
permission paired with its `{"policy", "boundary"}` provenance (the entry's
`policy_uuid` field is carried in the Python dict but never read again). -/
def groupBindingPerms (f : Fetcher) (b : BindingRec) : List (Perm × SourceG) :=
  match f.getPolicy (b.policyUuid.getD "") with
  | none => []
  | some pol =>
    (parse_statement_query (pol.statementQuery.getD "")).map fun perm =>
      (perm, { policy := pol.name.getD "", boundary := b.boundaryUuid })

/-- Method `PermissionsCalculator.get_group_effective_permissions`. -/
def get_group_effective_permissions (f : Fetcher) (group_id : String) :
    AggResult GroupEffResult :=
  match (match f.getGroup group_id with
         | some g => some g
         | none => f.getGroupByName group_id) with
  | none => .error ("Group not found: " ++ group_id)
  | some group =>
    let group_uuid := group.uuid.getD group_id
    let group_name := group.name.getD group_id
    let bindings := f.getBindingsForGroup group_uuid
    let policy_permissions := bindings.flatMap (groupBindingPerms f)
    let unique := aggregate policy_permissions
    .ok { group_uuid := group_uuid
          group_name := group_name
          bindings := bindings
          binding_count := bindings.length
          effective_permissions := unique.map (·.2)
          permission_count := unique.length }

/-! ## Coverage matrices (`PermissionsMatrix`) -/

/-- Set accumulation in encounter order (`set.add`): membership is all the
code observes; the column list is sorted afterwards, so encounter order is
irrelevant to the output, matching Python's unordered `set`. -/
def insertSet (l : List String) (x : String) : List String :=
  if l.contains x then l else l ++ [x]

/-- Python dict assignment `d[k] = v`: overwrite in place (keeping the
original insertion position) or append a new key. -/
def dictUpd {α : Type} (l : List (String × α)) (k : String) (v : α) :
    List (String × α) :=
  if l.any (fun kv => kv.1 == k) then
    l.map fun kv => if kv.1 == k then (k, v) else kv
  else l ++ [(k, v)]

/-- Ascending insertion (Python `sorted`, restricted to the distinct keys it
is applied to). -/
def insertAsc (x : String) : List String → List String
  | [] => [x]
  | y :: ys => if x ≤ y then x :: y :: ys else y :: insertAsc x ys

/-- Python `sorted(...)` on the accumulated key set. -/
def sortAsc : List String → List String
  | [] => []
  | x :: xs => insertAsc x (sortAsc xs)

/-- One matrix row: the entity columns plus one boolean per permission key,
in the order of the sorted permission list. -/
structure MatrixRow where
  name : String
  uuid : String
  cells : List Bool
deriving DecidableEq, Repr

/-- Result record of the matrix builders (`policy_count`/`group_count` is
`entity_count`). -/
structure MatrixResult where
  permissions : List String
  entities : List String
  matrix : List MatrixRow
  entity_count : Nat
  permission_count : Nat
deriving DecidableEq, Repr

/-- The `"{effect}:{action}"` keys of one listed policy: detail is re-fetched
(`policy_handler.get`), a falsy detail contributes the empty statement. -/
def policyKeys (f : Fetcher) (p : PolicyRec) : List String :=
  let statement :=
    match f.getPolicy (p.uuid.getD "") with
    | some d => d.statementQuery.getD ""
    | none => ""
  (parse_statement_query statement).map fun perm => permKey perm.effect perm.action

/-- The `all_permissions` union set of `generate_policy_matrix`, in encounter
order. -/
def policyAllPerms (f : Fetcher) : List String :=
  f.listPolicies.foldl (fun s p => (policyKeys f p).foldl insertSet s) []

/-- The `policy_permissions` dict of `generate_policy_matrix`, keyed by
`policy.get("name", "")` (a duplicate name overwrites the stored value while
keeping the first insertion position). -/
def policyDict (f : Fetcher) : List (String × (String × List String)) :=
  f.listPolicies.foldl
    (fun d p =>
      dictUpd d (p.name.getD "")
        (p.uuid.getD "", (policyKeys f p).foldl insertSet []))
    []

/-- Method `PermissionsMatrix.generate_policy_matrix`. -/
def generate_policy_matrix (f : Fetcher) : MatrixResult :=
  let permission_list := sortAsc (policyAllPerms f)
  { permissions := permission_list
    entities := (policyDict f).map (·.1)
    matrix := (policyDict f).map fun kv =>
      { name := kv.1, uuid := kv.2.1
        cells := permission_list.map fun perm => kv.2.2.contains perm }
    entity_count := f.listPolicies.length
    permission_count := permission_list.length }

/-- The `"{effect}:{action}"` keys of one listed group: bindings whose policy
lookup is falsy are skipped (`if policy:`). -/
def groupKeys (f : Fetcher) (g : GroupRec) : List String :=
  (f.getBindingsForGroup (g.uuid.getD "")).flatMap fun b =>
    match f.getPolicy (b.policyUuid.getD "") with
    | none => []
    | some pol =>
      (parse_statement_query (pol.statementQuery.getD "")).map fun perm =>
        permKey perm.effect perm.action

/-- The `all_permissions` union set of `generate_group_matrix`. -/
def groupAllPerms (f : Fetcher) : List String :=
  f.listGroups.foldl (fun s g => (groupKeys f g).foldl insertSet s) []

/-- The `group_permissions` dict of `generate_group_matrix`, keyed by
`group.get("name", "")`. -/
def groupDict (f : Fetcher) : List (String × (String × List String)) :=
  f.listGroups.foldl
    (fun d g =>
      dictUpd d (g.name.getD "")
        (g.uuid.getD "", (groupKeys f g).foldl insertSet []))
    []

/-- Method `PermissionsMatrix.generate_group_matrix`. -/
def generate_group_matrix (f : Fetcher) : MatrixResult :=
  let permission_list := sortAsc (groupAllPerms f)
  { permissions := permission_list
    entities := (groupDict f).map (·.1)
    matrix := (groupDict f).map fun kv =>
      { name := kv.1, uuid := kv.2.1
        cells := permission_list.map fun perm => kv.2.2.contains perm }
    entity_count := f.listGroups.length
    permission_count := permission_list.length }

/-! ## Wildcard matcher (`commands/raci.py`) -/

/-- Python `s.replace("*", "")`. -/
def stripStar (s : String) : String := ⟨s.data.filter fun c => c ≠ '*'⟩

/-- Function `check_permission_match(group_permissions, required)` from `raci.py`: the
held set is modelled as a list (Python iterates a `set`; the result is an
existential over its elements, so iteration order is irrelevant). -/
def check_permission_match (group_permissions : List String)
    (required : List String) : Bool :=
  required.any fun req =>
    group_permissions.contains req ||
    group_permissions.any fun perm =>
      (req.data.contains '*' && (stripStar req).data.isPrefixOf perm.data) ||
      (perm.data.contains '*' && (stripStar perm).data.isPrefixOf req.data)

/-! ## `EffectivePermissionsAPI` (all-pages adapter) -/

/-- One page result from the resolution endpoint, as the adapter reads it:
key presence of `error`, `effectivePermissions`, `items`, `total`. -/
structure PageResult (α : Type) where
  error : Option String := none
  effectivePermissions : Option (List α) := none
  items : Option (List α) := none
  total : Option Nat := none
deriving DecidableEq, Repr

/-- Adapter outcome: the soft-failure dict from entity resolution, a page
dict returned as-is (single-page mode or abort-on-error), the assembled
success record, or fuel exhaustion (the Python `while True` loop has no bound;
the model makes possible divergence explicit). -/
inductive ApiOutcome (α : Type) where
  | notFound (msg : String)
  | page (r : PageResult α)
  | ok (entityId entityType levelType levelId : String)
       (effectivePermissions : List α) (total : Nat)
  | divergent
deriving DecidableEq, Repr

/-- The `while True` pagination loop shared verbatim by the user and group
variants: abort on an `error` key, extend the accumulator, stop when the
accumulated count reaches `result.get("total", len(permissions))` or a page
comes back empty, else advance the page counter. -/
def pagesLoop {α : Type} (fetch : Nat → PageResult α) :
    Nat → List α → Nat → Option (PageResult α ⊕ List α)
  | 0, _, _ => none
  | fuel + 1, acc, pageNum =>
    let result := fetch pageNum
    if result.error.isSome then some (.inl result)
    else
      let permissions := result.effectivePermissions.getD (result.items.getD [])
      let acc' := acc ++ permissions
      let total := result.total.getD permissions.length
      if total ≤ acc'.length || permissions.isEmpty then some (.inr acc')
      else pagesLoop fetch fuel acc' (pageNum + 1)

/-- Method `EffectivePermissionsAPI.get_user_effective_permissions` with
`all_pages=True`: email-shaped identifiers are resolved through
`get_by_email` first; `fetch` abstracts `get_effective_permissions` for the
resolved entity (page number ↦ page result).  `accountUuid` models
`self.client.account_uuid` and `levelId` the optional `level_id` argument. -/
def api_get_user_effective_permissions {α : Type} (f : Fetcher)
    (fetch : Nat → PageResult α) (accountUuid : String) (user_id : String)
    (levelType : String) (levelId : Option String) (fuel : Nat) :
    ApiOutcome α :=
  let resolved :=
    if user_id.data.contains '@' then
      match f.getUserByEmail user_id with
      | none => none
      | some user => some (user.uid.getD user_id)
    else some user_id
  match resolved with
  | none => .notFound ("User not found: " ++ user_id)
  | some uid =>
    match pagesLoop fetch fuel [] 1 with
    | none => .divergent
    | some (.inl errPage) => .page errPage
    | some (.inr perms) =>
      .ok uid "user" levelType (levelId.getD accountUuid) perms perms.length

/-- Method `EffectivePermissionsAPI.get_group_effective_permissions` with
`all_pages=True`: the group is resolved by UUID then by name. -/
def api_get_group_effective_permissions {α : Type} (f : Fetcher)
    (fetch : Nat → PageResult α) (accountUuid : String) (group_id : String)
    (levelType : String) (levelId : Option String) (fuel : Nat) :
    ApiOutcome α :=
  match (match f.getGroup group_id with
         | some g => some g
         | none => f.getGroupByName group_id) with
  | none => .notFound ("Group not found: " ++ group_id)
  | some group =>
    match pagesLoop fetch fuel [] 1 with
    | none => .divergent
    | some (.inl errPage) => .page errPage
    | some (.inr perms) =>
      .ok (group.uuid.getD group_id) "group" levelType (levelId.getD accountUuid)
        perms perms.length

/-! ## Concrete collaborators used to evaluate the engine on closed inputs -/

/-- A collaborator that knows nothing. -/
def trivialFetcher : Fetcher where
  getUser := fun _ => none
  getUserByEmail := fun _ => none
  getUserGroups := fun _ => []
  getGroup := fun _ => none
  getGroupByName := fun _ => none
  listGroups := []
  listPolicies := []
  getBindingsForGroup := fun _ => []
  getPolicy := fun _ => none

/-- Group `g1` bound to one policy whose statement is `DENY a;`. -/
def denyOnlyFetcher : Fetcher :=
  { trivialFetcher with
    getGroup := fun gid =>
      if gid = "g1" then some { uuid := some "g1", name := some "G1" } else none
    getBindingsForGroup := fun gid =>
      if gid = "g1" then [{ policyUuid := some "p1" }] else []
    getPolicy := fun pid =>
      if pid = "p1" then
        some { uuid := some "p1", name := some "P1",
               statementQuery := some "DENY a;" }
      else none }

/-- Group `g1` bound to one policy granting and denying the same action. -/
def allowDenyFetcher : Fetcher :=
  { trivialFetcher with
    getGroup := fun gid =>
      if gid = "g1" then some { uuid := some "g1", name := some "G1" } else none
    getBindingsForGroup := fun gid =>
      if gid = "g1" then [{ policyUuid := some "p1" }] else []
    getPolicy := fun pid =>
      if pid = "p1" then
        some { uuid := some "p1", name := some "P1",
               statementQuery := some "ALLOW a; DENY a;" }
      else none }

/-- Two groups whose bindings grant the same action through two policies. -/
def twoGroupFetcher : Fetcher :=
  { trivialFetcher with
    getUser := fun uid =>
      if uid = "u1" then some { uid := some "u1", email := some "u@x" } else none
    getUserGroups := fun uid =>
      if uid = "u1" then
        [{ uuid := some "g1", name := some "G1" },
         { uuid := some "g2", name := some "G2" }]
      else []
    getBindingsForGroup := fun gid =>
      if gid = "g1" then [{ policyUuid := some "p1" }]
      else if gid = "g2" then [{ policyUuid := some "p2" }]
      else []
    getPolicy := fun pid =>
      if pid = "p1" then
        some { uuid := some "p1", name := some "P1",
               statementQuery := some "ALLOW a;" }
      else if pid = "p2" then
        some { uuid := some "p2", name := some "P2",
               statementQuery := some "ALLOW a;" }
      else none }

/-- Knows user `u1` only through the email lookup. -/
def emailOnlyFetcher : Fetcher :=
  { trivialFetcher with
    getUserByEmail := fun uid =>
      if uid = "u1" then some { uid := some "u1", email := some "u1@x" }
      else none }

/-- Two listed policies sharing the name `p`, with different statements. -/
def dupNameFetcher : Fetcher :=
  { trivialFetcher with
    listPolicies := [{ uuid := some "pu1", name := some "p" },
                     { uuid := some "pu2", name := some "p" }]
    getPolicy := fun pid =>
      if pid = "pu1" then
        some { uuid := some "pu1", name := some "p",
               statementQuery := some "ALLOW a;" }
      else if pid = "pu2" then
        some { uuid := some "pu2", name := some "p",
               statementQuery := some "ALLOW b;" }
      else none }

/-- Two listed policies with distinct names. -/
def twoPolicyFetcher : Fetcher :=
  { trivialFetcher with
    listPolicies := [{ uuid := some "pu1", name := some "p1" },
                     { uuid := some "pu2", name := some "p2" }]
    getPolicy := fun pid =>
      if pid = "pu1" then
        some { uuid := some "pu1", name := some "p1",
               statementQuery := some "ALLOW b;" }
      else if pid = "pu2" then
        some { uuid := some "pu2", name := some "p2",
               statementQuery := some "ALLOW a;" }
      else none }

/-- Knows only group `g1`. -/
def g1Fetcher : Fetcher :=
  { trivialFetcher with
    getGroup := fun gid =>
      if gid = "g1" then some { uuid := some "g1", name := some "G1" } else none }

/-- Group `g1` with one resolvable binding and one binding to a missing
policy. -/
def mixedBindingFetcher : Fetcher :=
  { trivialFetcher with
    getGroup := fun gid =>
      if gid = "g1" then some { uuid := some "g1", name := some "G1" } else none
    getUser := fun uid =>
      if uid = "u1" then some { uid := some "u1", email := some "u@x" } else none
    getUserGroups := fun uid =>
      if uid = "u1" then [{ uuid := some "g1", name := some "G1" }] else []
    listGroups := [{ uuid := some "g1", name := some "G1" }]
    getBindingsForGroup := fun gid =>
      if gid = "g1" then
        [{ policyUuid := some "p1" }, { policyUuid := some "missing" }]
      else []
    getPolicy := fun pid =>
      if pid = "p1" then
        some { uuid := some "p1", name := some "P1",
               statementQuery := some "ALLOW a;" }
      else none }

/-- The record `get_group_effective_permissions allowDenyFetcher "g1"`
evaluates to. -/
def allowDenyResult : GroupEffResult where
  group_uuid := "g1"
  group_name := "G1"
  bindings := [{ policyUuid := some "p1" }]
  binding_count := 1
  effective_permissions :=
    [{ effect := "ALLOW", action := "a", description := "a",
       sources := [{ policy := "P1", boundary := none }] },
     { effect := "DENY", action := "a", description := "a",
       sources := [{ policy := "P1", boundary := none }] }]
  permission_count := 2

/-- The record `get_user_effective_permissions twoGroupFetcher "u1"`
evaluates to: the same grant reached through two groups accumulates two
sources on a single entry. -/
def twoGroupResult : UserEffResult where
  user_uid := "u1"
  user_email := "u@x"
  groups := [(some "g1", some "G1"), (some "g2", some "G2")]
  group_count := 2
  bindings :=
    [{ group_uuid := "g1", group_name := "G1", policy_uuid := "p1",
       policy_name := "P1",
       permissions := [{ effect := "ALLOW", action := "a", description := "a" }],
       boundary := none },
     { group_uuid := "g2", group_name := "G2", policy_uuid := "p2",
       policy_name := "P2",
       permissions := [{ effect := "ALLOW", action := "a", description := "a" }],
       boundary := none }]
  binding_count := 2
  effective_permissions :=
    [{ effect := "ALLOW", action := "a", description := "a",
       sources := [{ group := "G1", policy := "P1" },
                   { group := "G2", policy := "P2" }] }]
  permission_count := 1

/-- Knows group `G1` only through the name lookup. -/
def nameOnlyFetcher : Fetcher :=
  { trivialFetcher with
    getGroupByName := fun gid =>
      if gid = "G1" then some { uuid := some "g1", name := some "G1" } else none }

/-- Page sequence whose second page carries an `error` key. -/
def errorPage2Fetch : Nat → PageResult String := fun n =>
  if n = 1 then { effectivePermissions := some ["x"], total := some 3 }
  else { error := some "boom", total := some 3 }

/-- Page sequence whose server-reported `total` (50) never matches the two
items actually served. -/
def shortPagesFetch : Nat → PageResult String := fun n =>
  if n = 1 then { effectivePermissions := some ["a", "b"], total := some 50 }
  else { effectivePermissions := some [], total := some 50 }

/-- The same collaborator with every binding whose policy lookup is falsy
removed: the engine's `if policy:` guards make unresolvable bindings
invisible, which the theorems below state as equivalence with this pruned
collaborator. -/
def pruneFetcher (f : Fetcher) : Fetcher :=
  { f with
    getBindingsForGroup := fun gid =>
      (f.getBindingsForGroup gid).filter fun b =>
        (f.getPolicy (b.policyUuid.getD "")).isSome }

/-! ## Theorems -/

theorem length_dropWhile_le (p : Char → Bool) (l : List Char) :
    (l.dropWhile p).length ≤ l.length := by
  induction l with
  | nil => simp [List.dropWhile]
  | cons c cs ih =>
    simp only [List.dropWhile]
    split
    · exact Nat.le_succ_of_le ih
    · exact Nat.le_refl _

/-- Fuel irrelevance: any fuel of at least the input length computes the same
result, so the fuel instantiation in `matchClauseAfterEffect` is harmless. -/
theorem actionIters_fuel (fuel₁ fuel₂ : Nat) (r : List Char)
    (h₁ : r.length ≤ fuel₁) (h₂ : r.length ≤ fuel₂) :
    actionIters fuel₁ r = actionIters fuel₂ r := by
  induction fuel₁ generalizing fuel₂ r with
  | zero =>
    have hr : r = [] := List.eq_nil_of_length_eq_zero (Nat.le_zero.mp h₁)
    subst hr
    cases fuel₂ with
    | zero => rfl
    | succ f => simp [actionIters, List.dropWhile]
  | succ f₁ ih =>
    cases fuel₂ with
    | zero =>
      have hr : r = [] := List.eq_nil_of_length_eq_zero (Nat.le_zero.mp h₂)
      subst hr
      simp [actionIters, List.dropWhile]
    | succ f₂ =>
      simp only [actionIters]
      cases hdw : r.dropWhile isPySpace with
      | nil => rfl
      | cons x b =>
        simp only
        by_cases hx : x = ','
        · simp only [if_pos hx]
          have hblen : b.length + 1 ≤ r.length := by
            have := length_dropWhile_le isPySpace r
            rw [hdw] at this
            simpa using this
          have hd : (List.dropWhile (fun y => !isPySpace y)
              (List.dropWhile isPySpace b)).length ≤ b.length :=
            Nat.le_trans (length_dropWhile_le _ _) (length_dropWhile_le _ _)
          have hrec := ih f₂
            (List.dropWhile (fun y => !isPySpace y) (List.dropWhile isPySpace b))
            (by omega) (by omega)
          rw [hrec]
        · simp only [if_neg hx]


/-- C3: `check_permission_match(held, required)` returns true iff some
required pattern and some held permission are related by exact equality, or
the required pattern contains `*` and the held permission starts with the
required pattern with its `*` characters removed, or the held permission
contains `*` and the required pattern starts with the held permission with
its `*` characters removed; in particular
`matches({"settings:objects:read"}, ["settings:*"])` is true,
`matches({"settings:objects:read"}, ["storage:*"])` is false, and
`matches({"account:*"}, ["account:users:read"])` is true. -/
theorem check_permission_match_spec :
    (∀ (held required : List String),
      check_permission_match held required = true ↔
        ∃ req ∈ required, ∃ perm ∈ held,
          (perm = req ∨
            ('*' ∈ req.data ∧ (stripStar req).data <+: perm.data) ∨
            ('*' ∈ perm.data ∧ (stripStar perm).data <+: req.data))) ∧
    check_permission_match ["settings:objects:read"] ["settings:*"] = true ∧
    check_permission_match ["settings:objects:read"] ["storage:*"] = false ∧
    check_permission_match ["account:*"] ["account:users:read"] = true := by
  refine ⟨fun held required => ?_, by decide, by decide, by decide⟩
  simp only [check_permission_match, List.any_eq_true, Bool.or_eq_true,
    Bool.and_eq_true, List.elem_iff, List.isPrefixOf_iff_prefix]
  constructor
  · rintro ⟨req, hreq, hcase⟩
    rcases hcase with hmem | ⟨perm, hperm, hcase⟩
    · exact ⟨req, hreq, req, hmem, Or.inl rfl⟩
    · exact ⟨req, hreq, perm, hperm, Or.inr hcase⟩
  · rintro ⟨req, hreq, perm, hperm, hcase⟩
    rcases hcase with heq | hcase
    · exact ⟨req, hreq, Or.inl (heq ▸ hperm)⟩
    · exact ⟨req, hreq, Or.inr ⟨perm, hperm, hcase⟩⟩

/-- Splitting at an explicit separator occurrence, provided the first part is
separator-free. -/
theorem pySplit_append (sep : Char) (l₁ l₂ : List Char)
    (h : ¬ sep ∈ l₁) :
    pySplit sep (l₁ ++ sep :: l₂) = l₁ :: pySplit sep l₂ := by
  induction l₁ with
  | nil => simp [pySplit]
  | cons c cs ih =>
    have hc : ¬ c = sep := by
      intro hcc
      exact h (hcc ▸ List.mem_cons_self c cs)
    have hcs : ¬ sep ∈ cs := fun hm => h (List.mem_cons_of_mem c hm)
    simp only [List.cons_append, pySplit, if_neg hc, List.append_eq]
    rw [ih hcs]

/-- C5: `parse_statement_query` never raises: it is a total function, and a
clause that does not match the `(ALLOW|DENY)` grammar is silently dropped,
contributing no entry and no partial record; in particular
`parse_statement_query("NOT_A_CLAUSE; ALLOW a;")` returns exactly one entry,
for action `a`. -/
theorem parse_statement_query_drops_bad_clauses :
    (∀ (bad rest : String), matchClause (pyStrip bad.data) = none →
      ¬ ';' ∈ bad.data →
      parse_statement_query (bad ++ ";" ++ rest) = parse_statement_query rest) ∧
    parse_statement_query "NOT_A_CLAUSE; ALLOW a;" =
      [{ effect := "ALLOW", action := "a", description := "a" }] := by
  refine ⟨fun bad rest hmatch hsep => ?_, by decide⟩
  have hdata : (bad ++ ";" ++ rest).data = bad.data ++ ';' :: rest.data := by
    simp [String.data_append]
  simp only [parse_statement_query, hdata, pySplit_append ';' bad.data rest.data hsep]
  simp only [List.map_cons, List.filter_cons]
  by_cases hempty : (pyStrip bad.data).isEmpty = true
  · simp [hempty]
  · simp only [hempty, Bool.not_false, if_pos]
    simp [clauseEntries, hmatch]

theorem parse_statement_query_drops_bad_clauses_witness :
    parse_statement_query ("NOT_A_CLAUSE" ++ ";" ++ " ALLOW a;") =
      parse_statement_query " ALLOW a;" :=
  parse_statement_query_drops_bad_clauses.1 "NOT_A_CLAUSE" " ALLOW a;"
    (by decide) (by decide)

/-- C6 counterexample: `parse_statement_query("ALLOW a, b WHERE x=1;")` does
NOT return two entries with actions `a`, `b` and conditions `x=1`.  The greedy
action token `[^\s]+` absorbs the comma attached to `a`, the repetition then
finds no further comma, and the optional `WHERE` tail does not participate, so
the captured actions text is `"a,"`, which splits into actions `a` and the
empty string, with no conditions. -/
theorem parse_statement_query_clause_isolation_cex :
    parse_statement_query "ALLOW a, b WHERE x=1;" =
      [{ effect := "ALLOW", action := "a", description := "a" },
       { effect := "ALLOW", action := "", description := "" }] ∧
    parse_statement_query "ALLOW a, b WHERE x=1;" ≠
      [{ effect := "ALLOW", action := "a", description := "a",
         conditions := some "x=1" },
       { effect := "ALLOW", action := "b", description := "b",
         conditions := some "x=1" }] := by
  constructor
  · decide
  · decide

/-- C6 (amended): for every clause whose (stripped) text matches the grammar
regex, each comma-split component of the captured actions text produces one
independent entry, all sharing the clause's uppercased effect and the captured
conditions when the `WHERE` part participates in the match, in encounter
order without deduplication.  Because the greedy action token can absorb a
comma directly attached to it, `"ALLOW a, b WHERE x=1;"` parses to two
entries with actions `a` and `""` and no conditions, while
`"ALLOW a,b WHERE x=1;"` parses to two entries with actions `a` and `b`,
both with effect `ALLOW` and conditions `x=1`; the effect keyword is matched
case-insensitively and emitted uppercased. -/
theorem parse_statement_query_clause_isolation :
    (∀ (cs : List Char) (eff : String) (acts : List Char)
        (cond : Option (List Char)),
      matchClause cs = some (eff, acts, cond) →
      clauseEntries cs = ((pySplit ',' acts).map pyStrip).map fun a =>
        { effect := eff
          action := ⟨a⟩
          description := descriptionFor ⟨a⟩
          conditions :=
            match cond with
            | none => none
            | some c => if c.isEmpty then none else some ⟨c⟩ }) ∧
    parse_statement_query "ALLOW a,b WHERE x=1;" =
      [{ effect := "ALLOW", action := "a", description := "a",
         conditions := some "x=1" },
       { effect := "ALLOW", action := "b", description := "b",
         conditions := some "x=1" }] ∧
    parse_statement_query "ALLOW a, b WHERE x=1;" =
      [{ effect := "ALLOW", action := "a", description := "a" },
       { effect := "ALLOW", action := "", description := "" }] ∧
    parse_statement_query "allow a where y=2;" =
      [{ effect := "ALLOW", action := "a", description := "a",
         conditions := some "y=2" }] := by
  refine ⟨fun cs eff acts cond hmatch => ?_, by decide, by decide, by decide⟩
  simp [clauseEntries, hmatch]

theorem parse_statement_query_clause_isolation_witness :
    clauseEntries "ALLOW x WHERE y=1".data =
      ((pySplit ',' "x".data).map pyStrip).map (fun a =>
        ({ effect := "ALLOW"
           action := ⟨a⟩
           description := descriptionFor ⟨a⟩
           conditions := if "y=1".data.isEmpty then none
                         else some ⟨"y=1".data⟩ } : Perm)) :=
  parse_statement_query_clause_isolation.1 "ALLOW x WHERE y=1".data
    "ALLOW" "x".data (some "y=1".data) (by decide)

/-! ### Aggregation lemmas -/

theorem addPerm_keys {σ : Type} (acc : List (String × EffPerm σ)) (p : Perm)
    (src : σ) (k : String) :
    k ∈ (addPerm acc p src).map (·.1) ↔
      k ∈ acc.map (·.1) ∨ k = permKey p.effect p.action := by
  unfold addPerm
  by_cases h : acc.any (fun kv => kv.1 == permKey p.effect p.action) = true
  · have hkey : permKey p.effect p.action ∈ acc.map (·.1) := by
      rcases List.any_eq_true.mp h with ⟨kv, hkv, hbeq⟩
      exact List.mem_map.mpr ⟨kv, hkv, eq_of_beq hbeq⟩
    have hkeys :
        (acc.map fun kv =>
          if kv.1 == permKey p.effect p.action then
            (kv.1, { kv.2 with sources := kv.2.sources ++ [src] })
          else kv).map (·.1) = acc.map (·.1) := by
      rw [List.map_map]
      refine List.map_congr_left fun kv _ => ?_
      simp only [Function.comp_apply]
      split <;> rfl
    simp only [if_pos h, hkeys]
    constructor
    · exact Or.inl
    · rintro (hk | rfl)
      · exact hk
      · exact hkey
  · simp only [if_neg h, List.map_append, List.map_cons, List.map_nil,
      List.mem_append, List.mem_singleton]

theorem addPerm_fst {σ : Type} (acc : List (String × EffPerm σ)) (p : Perm)
    (src : σ)
    (hfst : ∀ kv ∈ acc, kv.1 = permKey kv.2.effect kv.2.action) :
    ∀ kv ∈ addPerm acc p src, kv.1 = permKey kv.2.effect kv.2.action := by
  unfold addPerm
  by_cases h : acc.any (fun kv => kv.1 == permKey p.effect p.action) = true
  · simp only [if_pos h]
    intro kv hkv
    rcases List.mem_map.mp hkv with ⟨kv', hkv', heq⟩
    by_cases hb : kv'.1 == permKey p.effect p.action
    · simp only [hb, if_pos] at heq
      subst heq
      simpa using hfst kv' hkv'
    · simp only [hb] at heq
      simp only [Bool.false_eq_true, if_false] at heq
      subst heq
      exact hfst kv' hkv'
  · simp only [if_neg h]
    intro kv hkv
    rcases List.mem_append.mp hkv with hkv | hkv
    · exact hfst kv hkv
    · rcases List.mem_singleton.mp hkv with rfl
      rfl

theorem addPerm_nodup {σ : Type} (acc : List (String × EffPerm σ)) (p : Perm)
    (src : σ) (hnd : (acc.map (·.1)).Nodup) :
    ((addPerm acc p src).map (·.1)).Nodup := by
  unfold addPerm
  by_cases h : acc.any (fun kv => kv.1 == permKey p.effect p.action) = true
  · have hkeys :
        (acc.map fun kv =>
          if kv.1 == permKey p.effect p.action then
            (kv.1, { kv.2 with sources := kv.2.sources ++ [src] })
          else kv).map (·.1) = acc.map (·.1) := by
      rw [List.map_map]
      refine List.map_congr_left fun kv _ => ?_
      simp only [Function.comp_apply]
      split <;> rfl
    simpa only [if_pos h, hkeys] using hnd
  · have hnotmem : permKey p.effect p.action ∉ acc.map (·.1) := by
      intro hmem
      rcases List.mem_map.mp hmem with ⟨kv, hkv, hk⟩
      exact h (List.any_eq_true.mpr ⟨kv, hkv, beq_iff_eq.mpr hk⟩)
    simp only [if_neg h, List.map_append, List.map_cons, List.map_nil]
    rw [List.nodup_append]
    exact ⟨hnd, List.nodup_singleton _, by
      intro a ha hb
      rcases List.mem_singleton.mp hb with rfl
      exact hnotmem ha⟩

theorem aggregate_go_keys {σ : Type} (ps : List (Perm × σ))
    (acc : List (String × EffPerm σ)) (k : String) :
    k ∈ ((ps.foldl (fun a q => addPerm a q.1 q.2) acc).map (·.1)) ↔
      k ∈ acc.map (·.1) ∨ ∃ p ∈ ps, permKey p.1.effect p.1.action = k := by
  induction ps generalizing acc with
  | nil => simp
  | cons q qs ih =>
    simp only [List.foldl_cons, ih, addPerm_keys, List.mem_cons]
    constructor
    · rintro ((hk | rfl) | ⟨p, hp, hkey⟩)
      · exact Or.inl hk
      · exact Or.inr ⟨q, Or.inl rfl, rfl⟩
      · exact Or.inr ⟨p, Or.inr hp, hkey⟩
    · rintro (hk | ⟨p, hp | hp, hkey⟩)
      · exact Or.inl (Or.inl hk)
      · exact Or.inl (Or.inr (hp ▸ hkey.symm))
      · exact Or.inr ⟨p, hp, hkey⟩

theorem aggregate_go_fst {σ : Type} (ps : List (Perm × σ))
    (acc : List (String × EffPerm σ))
    (hfst : ∀ kv ∈ acc, kv.1 = permKey kv.2.effect kv.2.action) :
    ∀ kv ∈ ps.foldl (fun a q => addPerm a q.1 q.2) acc,
      kv.1 = permKey kv.2.effect kv.2.action := by
  induction ps generalizing acc with
  | nil => simpa using hfst
  | cons q qs ih =>
    simp only [List.foldl_cons]
    exact ih _ (addPerm_fst acc q.1 q.2 hfst)

theorem aggregate_go_nodup {σ : Type} (ps : List (Perm × σ))
    (acc : List (String × EffPerm σ)) (hnd : (acc.map (·.1)).Nodup) :
    (((ps.foldl (fun a q => addPerm a q.1 q.2) acc)).map (·.1)).Nodup := by
  induction ps generalizing acc with
  | nil => simpa using hnd
  | cons q qs ih =>
    simp only [List.foldl_cons]
    exact ih _ (addPerm_nodup acc q.1 q.2 hnd)

theorem aggregate_keys {σ : Type} (ps : List (Perm × σ)) (k : String) :
    k ∈ (aggregate ps).map (·.1) ↔
      ∃ p ∈ ps, permKey p.1.effect p.1.action = k := by
  simpa using aggregate_go_keys ps [] k

theorem aggregate_fst {σ : Type} (ps : List (Perm × σ)) :
    ∀ kv ∈ aggregate ps, kv.1 = permKey kv.2.effect kv.2.action :=
  aggregate_go_fst ps [] (by simp)

theorem aggregate_nodup {σ : Type} (ps : List (Perm × σ)) :
    ((aggregate ps).map (·.1)).Nodup :=
  aggregate_go_nodup ps [] (by simp)

/-- For an accumulator whose entries are keyed by their own
`effect:action`, key membership coincides with the keys of its values. -/
theorem values_key_mem {σ : Type} (l : List (String × EffPerm σ))
    (hfst : ∀ kv ∈ l, kv.1 = permKey kv.2.effect kv.2.action) (k : String) :
    (∃ e ∈ l.map (·.2), permKey e.effect e.action = k) ↔ k ∈ l.map (·.1) := by
  constructor
  · rintro ⟨e, he, hk⟩
    rcases List.mem_map.mp he with ⟨kv, hkv, rfl⟩
    exact List.mem_map.mpr ⟨kv, hkv, by rw [hfst kv hkv, hk]⟩
  · intro hk
    rcases List.mem_map.mp hk with ⟨kv, hkv, rfl⟩
    exact ⟨kv.2, List.mem_map.mpr ⟨kv, hkv, rfl⟩, (hfst kv hkv).symm⟩

/-- Distinct keys force distinct `(effect, action)` pairs on the values. -/
theorem values_pairs_nodup {σ : Type} (l : List (String × EffPerm σ))
    (hfst : ∀ kv ∈ l, kv.1 = permKey kv.2.effect kv.2.action)
    (hnd : (l.map (·.1)).Nodup) :
    ((l.map (·.2)).map fun e => (e.effect, e.action)).Nodup := by
  rw [List.map_map]
  have hk : l.map (·.1) =
      (l.map fun kv => ((kv.2.effect, kv.2.action) : String × String)).map
        fun pr => permKey pr.1 pr.2 := by
    rw [List.map_map]
    exact List.map_congr_left fun kv hkv => hfst kv hkv
  rw [hk] at hnd
  exact hnd.of_map _

/-- Shape of a successful user aggregation: the effective permissions are the
values of the aggregation of all parsed group permissions. -/
theorem get_user_ok_eff (f : Fetcher) (uid : String) (r : UserEffResult)
    (h : get_user_effective_permissions f uid = .ok r) :
    r.effective_permissions =
      (aggregate ((f.getUserGroups r.user_uid).flatMap (userGroupPerms f))).map
        (·.2) := by
  unfold get_user_effective_permissions at h
  split at h
  · cases h
  · cases h
    rfl

/-- Shape of a successful group aggregation. -/
theorem get_group_ok_eff (f : Fetcher) (gid : String) (r : GroupEffResult)
    (h : get_group_effective_permissions f gid = .ok r) :
    r.effective_permissions =
      (aggregate (r.bindings.flatMap (groupBindingPerms f))).map (·.2) := by
  unfold get_group_effective_permissions at h
  split at h
  · cases h
  · cases h
    rfl

/-- C2: in every aggregation result of either calculator, no two entries of
`effective_permissions` share the same `(effect, action)` key; when an
already-present `(effect, action)` grant is encountered again, a new source is
appended to the existing entry (keys, entry count and all other entries
unchanged) and no duplicate entry is created. -/
theorem effective_permissions_dedup :
    (∀ (f : Fetcher) (uid : String) (r : UserEffResult),
      get_user_effective_permissions f uid = .ok r →
      (r.effective_permissions.map fun e => (e.effect, e.action)).Nodup) ∧
    (∀ (f : Fetcher) (gid : String) (r : GroupEffResult),
      get_group_effective_permissions f gid = .ok r →
      (r.effective_permissions.map fun e => (e.effect, e.action)).Nodup) ∧
    (∀ (σ : Type) (acc : List (String × EffPerm σ)) (p : Perm) (src : σ),
      permKey p.effect p.action ∈ acc.map (·.1) →
      (addPerm acc p src).map (·.1) = acc.map (·.1) ∧
      (addPerm acc p src).length = acc.length ∧
      (∀ kv ∈ acc, kv.1 ≠ permKey p.effect p.action → kv ∈ addPerm acc p src) ∧
      (∀ kv ∈ acc, kv.1 = permKey p.effect p.action →
        (kv.1, { kv.2 with sources := kv.2.sources ++ [src] }) ∈
          addPerm acc p src)) := by
  refine ⟨?_, ?_, ?_⟩
  · intro f uid r h
    rw [get_user_ok_eff f uid r h]
    exact values_pairs_nodup _ (aggregate_fst _) (aggregate_nodup _)
  · intro f gid r h
    rw [get_group_ok_eff f gid r h]
    exact values_pairs_nodup _ (aggregate_fst _) (aggregate_nodup _)
  · intro σ acc p src hmem
    have hany : (acc.any fun kv => kv.1 == permKey p.effect p.action) = true := by
      rcases List.mem_map.mp hmem with ⟨kv, hkv, hk⟩
      exact List.any_eq_true.mpr ⟨kv, hkv, beq_iff_eq.mpr hk⟩
    have haddPerm : addPerm acc p src =
        acc.map fun kv =>
          if kv.1 == permKey p.effect p.action then
            (kv.1, { kv.2 with sources := kv.2.sources ++ [src] })
          else kv := by
      unfold addPerm
      rw [if_pos hany]
    refine ⟨?_, ?_, ?_, ?_⟩
    · rw [haddPerm, List.map_map]
      refine List.map_congr_left fun kv _ => ?_
      simp only [Function.comp_apply]
      split <;> rfl
    · rw [haddPerm, List.length_map]
    · intro kv hkv hne
      rw [haddPerm]
      refine List.mem_map.mpr ⟨kv, hkv, ?_⟩
      rw [if_neg (by simpa using hne)]
    · intro kv hkv heq
      rw [haddPerm]
      exact List.mem_map.mpr ⟨kv, hkv, by rw [if_pos (by simpa using heq)]⟩

theorem effective_permissions_dedup_witness :
    (twoGroupResult.effective_permissions.map fun e => (e.effect, e.action)).Nodup :=
  effective_permissions_dedup.1 twoGroupFetcher "u1" twoGroupResult (by decide)

/-- C1 counterexample: a policy whose statement contains only DENY actions
contributes its DENY entry to `effective_permissions` (one entry, not zero):
the aggregation loops never filter on `effect`. -/
theorem deny_only_policy_contributes_cex :
    get_group_effective_permissions denyOnlyFetcher "g1" =
      .ok { group_uuid := "g1", group_name := "G1",
            bindings := [{ policyUuid := some "p1" }],
            binding_count := 1,
            effective_permissions :=
              [{ effect := "DENY", action := "a", description := "a",
                 sources := [{ policy := "P1", boundary := none }] }],
            permission_count := 1 } := by
  decide

/-- C1 (amended): every parsed entry is folded into `effective_permissions`
regardless of effect — the keys of an aggregation result are exactly the
`effect:action` keys of all statements parsed from resolvable bindings, DENY
included; DENY entries are never applied as overrides, so an ALLOW entry
coexists with a matching DENY entry. -/
theorem effective_permissions_fold_all_effects :
    (∀ (f : Fetcher) (uid : String) (r : UserEffResult) (k : String),
      get_user_effective_permissions f uid = .ok r →
      ((∃ e ∈ r.effective_permissions, permKey e.effect e.action = k) ↔
        ∃ p ∈ (f.getUserGroups r.user_uid).flatMap (userGroupPerms f),
          permKey p.1.effect p.1.action = k)) ∧
    (∀ (f : Fetcher) (gid : String) (r : GroupEffResult) (k : String),
      get_group_effective_permissions f gid = .ok r →
      ((∃ e ∈ r.effective_permissions, permKey e.effect e.action = k) ↔
        ∃ p ∈ r.bindings.flatMap (groupBindingPerms f),
          permKey p.1.effect p.1.action = k)) ∧
    get_group_effective_permissions allowDenyFetcher "g1" =
      .ok allowDenyResult := by
  refine ⟨?_, ?_, by decide⟩
  · intro f uid r k h
    rw [get_user_ok_eff f uid r h, values_key_mem _ (aggregate_fst _),
      aggregate_keys]
  · intro f gid r k h
    rw [get_group_ok_eff f gid r h, values_key_mem _ (aggregate_fst _),
      aggregate_keys]

theorem effective_permissions_fold_all_effects_witness :
    (∃ e ∈ allowDenyResult.effective_permissions,
        permKey e.effect e.action = "DENY:a") ↔
      ∃ p ∈ allowDenyResult.bindings.flatMap (groupBindingPerms allowDenyFetcher),
        permKey p.1.effect p.1.action = "DENY:a" :=
  effective_permissions_fold_all_effects.2.1 allowDenyFetcher "g1"
    allowDenyResult "DENY:a" (by decide)

/-- C8 counterexample: for users there is no direct-then-fallback lookup
chain.  With a collaborator that cannot resolve `"u1"` directly but would
resolve it through the email lookup, the user calculator still returns the
not-found soft failure, because an identifier without `@` only ever tries the
direct UID lookup. -/
theorem user_resolution_no_fallback_cex :
    emailOnlyFetcher.getUserByEmail "u1" =
      some { uid := some "u1", email := some "u1@x" } ∧
    get_user_effective_permissions emailOnlyFetcher "u1" =
      .error "User not found: u1" := by
  constructor
  · decide
  · decide

/-- C8 (amended): group resolution tries the direct UUID lookup and then
falls back to the name lookup; user resolution instead branches on `@`:
identifiers containing `@` use only the email lookup and all others use only
the direct UID lookup, with no fallback.  Whenever the attempted lookups
fail, both functions return the soft-failure dict
`{error: "<entity> not found: <identifier>"}` without raising. -/
theorem identifier_resolution :
    (∀ (f : Fetcher) (gid : String),
      f.getGroup gid = none → f.getGroupByName gid = none →
      get_group_effective_permissions f gid =
        .error ("Group not found: " ++ gid)) ∧
    (∀ (f : Fetcher) (gid : String) (g : GroupRec),
      f.getGroup gid = none → f.getGroupByName gid = some g →
      ∃ r, get_group_effective_permissions f gid = .ok r) ∧
    (∀ (f : Fetcher) (uid : String),
      uid.data.contains '@' = true → f.getUserByEmail uid = none →
      get_user_effective_permissions f uid =
        .error ("User not found: " ++ uid)) ∧
    (∀ (f : Fetcher) (uid : String),
      uid.data.contains '@' = false → f.getUser uid = none →
      get_user_effective_permissions f uid =
        .error ("User not found: " ++ uid)) := by
  refine ⟨?_, ?_, ?_, ?_⟩
  · intro f gid h1 h2
    simp [get_group_effective_permissions, h1, h2]
  · intro f gid g h1 h2
    simp only [get_group_effective_permissions, h1, h2]
    exact ⟨_, rfl⟩
  · intro f uid h1 h2
    have h1m : '@' ∈ uid.data := by simpa using h1
    simp [get_user_effective_permissions, h1m, h2]
  · intro f uid h1 h2
    have h1m : '@' ∉ uid.data := by simpa using h1
    simp [get_user_effective_permissions, h1m, h2]

theorem identifier_resolution_witness :
    get_group_effective_permissions trivialFetcher "gx" =
      .error ("Group not found: " ++ "gx") ∧
    (∃ r, get_group_effective_permissions nameOnlyFetcher "G1" = .ok r) ∧
    get_user_effective_permissions trivialFetcher "a@b" =
      .error ("User not found: " ++ "a@b") ∧
    get_user_effective_permissions trivialFetcher "ux" =
      .error ("User not found: " ++ "ux") :=
  ⟨identifier_resolution.1 trivialFetcher "gx" (by decide) (by decide),
   identifier_resolution.2.1 nameOnlyFetcher "G1"
     { uuid := some "g1", name := some "G1" } (by decide) (by decide),
   identifier_resolution.2.2.1 trivialFetcher "a@b" (by decide) (by decide),
   identifier_resolution.2.2.2 trivialFetcher "ux" (by decide) (by decide)⟩

theorem filterMap_filter_of_none {α β : Type} (p : α → Bool) (F : α → Option β)
    (h : ∀ a, p a = false → F a = none) (l : List α) :
    (l.filter p).filterMap F = l.filterMap F := by
  induction l with
  | nil => rfl
  | cons a as ih =>
    by_cases hp : p a = true
    · simp [List.filter_cons, hp, List.filterMap_cons, ih]
    · have hfalse : p a = false := by simpa using hp
      simp [List.filter_cons, hfalse, List.filterMap_cons, h a hfalse, ih]

theorem flatMap_filter_of_nil {α β : Type} (p : α → Bool) (G : α → List β)
    (h : ∀ a, p a = false → G a = []) (l : List α) :
    (l.filter p).flatMap G = l.flatMap G := by
  induction l with
  | nil => rfl
  | cons a as ih =>
    by_cases hp : p a = true
    · simp [List.filter_cons, hp, ih]
    · have hfalse : p a = false := by simpa using hp
      simp [List.filter_cons, hfalse, h a hfalse, ih]

theorem prune_getUser (f : Fetcher) : (pruneFetcher f).getUser = f.getUser := rfl

theorem prune_getUserByEmail (f : Fetcher) :
    (pruneFetcher f).getUserByEmail = f.getUserByEmail := rfl

theorem prune_getUserGroups (f : Fetcher) :
    (pruneFetcher f).getUserGroups = f.getUserGroups := rfl

theorem prune_getGroup (f : Fetcher) : (pruneFetcher f).getGroup = f.getGroup := rfl

theorem prune_getGroupByName (f : Fetcher) :
    (pruneFetcher f).getGroupByName = f.getGroupByName := rfl

theorem prune_listGroups (f : Fetcher) :
    (pruneFetcher f).listGroups = f.listGroups := rfl

theorem prune_getPolicy (f : Fetcher) :
    (pruneFetcher f).getPolicy = f.getPolicy := rfl

theorem prune_getBindings (f : Fetcher) :
    (pruneFetcher f).getBindingsForGroup = fun gid =>
      (f.getBindingsForGroup gid).filter fun b =>
        (f.getPolicy (b.policyUuid.getD "")).isSome := rfl

theorem policy_none_of_isSome_false (f : Fetcher) (b : BindingRec)
    (hb : (f.getPolicy (b.policyUuid.getD "")).isSome = false) :
    f.getPolicy (b.policyUuid.getD "") = none := by
  cases hpol : f.getPolicy (b.policyUuid.getD "") with
  | none => rfl
  | some v => rw [hpol] at hb; simp at hb

theorem userGroupBindingInfo_prune (f : Fetcher) :
    userGroupBindingInfo (pruneFetcher f) = userGroupBindingInfo f := by
  funext g
  simp only [userGroupBindingInfo, prune_getPolicy, prune_getBindings]
  exact filterMap_filter_of_none _ _
    (fun b hb => by simp [policy_none_of_isSome_false f b hb]) _

theorem userGroupPerms_prune (f : Fetcher) :
    userGroupPerms (pruneFetcher f) = userGroupPerms f := by
  funext g
  simp only [userGroupPerms, prune_getPolicy, prune_getBindings]
  exact flatMap_filter_of_nil _ _
    (fun b hb => by simp [policy_none_of_isSome_false f b hb]) _

theorem groupBindingPerms_prune (f : Fetcher) :
    groupBindingPerms (pruneFetcher f) = groupBindingPerms f := by
  funext b
  simp only [groupBindingPerms, prune_getPolicy]

theorem groupKeys_prune (f : Fetcher) :
    groupKeys (pruneFetcher f) = groupKeys f := by
  funext g
  simp only [groupKeys, prune_getPolicy, prune_getBindings]
  exact flatMap_filter_of_nil _ _
    (fun b hb => by simp [policy_none_of_isSome_false f b hb]) _

/-- C10: a binding whose policy lookup is falsy is silently skipped by the
user aggregator, the group aggregator and the group matrix builder: each
computes exactly what it computes on the collaborator with all unresolvable
bindings removed — no permission entries from them, no error key, no failure,
while the remaining bindings' permissions are still returned.  (The group
aggregator additionally echoes the raw binding list, so its equivalence is
stated on the error outcome and on the permission fields.) -/
theorem unresolvable_bindings_skipped :
    (∀ (f : Fetcher) (uid : String),
      get_user_effective_permissions f uid =
        get_user_effective_permissions (pruneFetcher f) uid) ∧
    (∀ (f : Fetcher) (gid : String),
      (∀ e, get_group_effective_permissions f gid = .error e ↔
        get_group_effective_permissions (pruneFetcher f) gid = .error e) ∧
      (∀ r r', get_group_effective_permissions f gid = .ok r →
        get_group_effective_permissions (pruneFetcher f) gid = .ok r' →
        r'.group_uuid = r.group_uuid ∧ r'.group_name = r.group_name ∧
        r'.effective_permissions = r.effective_permissions ∧
        r'.permission_count = r.permission_count)) ∧
    (∀ f : Fetcher,
      generate_group_matrix f = generate_group_matrix (pruneFetcher f)) := by
  refine ⟨?_, ?_, ?_⟩
  · intro f uid
    unfold get_user_effective_permissions
    simp only [prune_getUser, prune_getUserByEmail, prune_getUserGroups,
      userGroupBindingInfo_prune, userGroupPerms_prune]
  · intro f gid
    constructor
    · intro e
      unfold get_group_effective_permissions
      simp only [prune_getGroup, prune_getGroupByName]
      cases hg : (match f.getGroup gid with
                  | some g => some g
                  | none => f.getGroupByName gid) with
      | none => exact Iff.rfl
      | some g => exact ⟨(fun h => nomatch h), (fun h => nomatch h)⟩
    · intro r r' h h'
      unfold get_group_effective_permissions at h h'
      simp only [prune_getGroup, prune_getGroupByName, prune_getBindings,
        groupBindingPerms_prune] at h'
      cases hg : (match f.getGroup gid with
                  | some g => some g
                  | none => f.getGroupByName gid) with
      | none => rw [hg] at h; cases h
      | some g =>
        rw [hg] at h h'
        cases h
        cases h'
        have hfl : ((f.getBindingsForGroup (g.uuid.getD gid)).filter fun b =>
              (f.getPolicy (b.policyUuid.getD "")).isSome).flatMap
                (groupBindingPerms f) =
            (f.getBindingsForGroup (g.uuid.getD gid)).flatMap
              (groupBindingPerms f) :=
          flatMap_filter_of_nil _ _
            (fun b hb => by simp [groupBindingPerms,
              policy_none_of_isSome_false f b hb]) _
        refine ⟨rfl, rfl, ?_, ?_⟩
        · show ((aggregate _).map _) = ((aggregate _).map _)
          rw [hfl]
        · show (aggregate _).length = (aggregate _).length
          rw [hfl]
  · intro f
    unfold generate_group_matrix groupAllPerms groupDict
    simp only [prune_listGroups, groupKeys_prune]

theorem unresolvable_bindings_skipped_witness :
    get_user_effective_permissions mixedBindingFetcher "u1" =
      get_user_effective_permissions (pruneFetcher mixedBindingFetcher) "u1" ∧
    (get_group_effective_permissions mixedBindingFetcher "g1" = .error "e" ↔
      get_group_effective_permissions (pruneFetcher mixedBindingFetcher) "g1" =
        .error "e") ∧
    ({ group_uuid := "g1", group_name := "G1",
       bindings := [{ policyUuid := some "p1" }],
       binding_count := 1,
       effective_permissions :=
         [{ effect := "ALLOW", action := "a", description := "a",
            sources := [{ policy := "P1", boundary := none }] }],
       permission_count := 1 } : GroupEffResult).effective_permissions =
      ({ group_uuid := "g1", group_name := "G1",
         bindings := [{ policyUuid := some "p1" },
                      { policyUuid := some "missing" }],
         binding_count := 2,
         effective_permissions :=
           [{ effect := "ALLOW", action := "a", description := "a",
              sources := [{ policy := "P1", boundary := none }] }],
         permission_count := 1 } : GroupEffResult).effective_permissions ∧
    generate_group_matrix mixedBindingFetcher =
      generate_group_matrix (pruneFetcher mixedBindingFetcher) :=
  ⟨unresolvable_bindings_skipped.1 mixedBindingFetcher "u1",
   (unresolvable_bindings_skipped.2.1 mixedBindingFetcher "g1").1 "e",
   ((unresolvable_bindings_skipped.2.1 mixedBindingFetcher "g1").2
     { group_uuid := "g1", group_name := "G1",
       bindings := [{ policyUuid := some "p1" },
                    { policyUuid := some "missing" }],
       binding_count := 2,
       effective_permissions :=
         [{ effect := "ALLOW", action := "a", description := "a",
            sources := [{ policy := "P1", boundary := none }] }],
       permission_count := 1 }
     { group_uuid := "g1", group_name := "G1",
       bindings := [{ policyUuid := some "p1" }],
       binding_count := 1,
       effective_permissions :=
         [{ effect := "ALLOW", action := "a", description := "a",
            sources := [{ policy := "P1", boundary := none }] }],
       permission_count := 1 }
     (by decide) (by decide)).2.2.1,
   unresolvable_bindings_skipped.2.2 mixedBindingFetcher⟩

/-- C4: in the all-pages adapters, a page result carrying an `error` key
aborts the loop immediately and is returned unchanged, discarding whatever
was accumulated from earlier pages (the loop's result does not depend on the
accumulator); end to end, with a collaborator whose second page fails, both
adapters return the page-2 error object rather than a partial list. -/
theorem pagination_abort_on_error :
    (∀ (α : Type) (fetch : Nat → PageResult α) (fuel : Nat) (acc : List α)
        (pageNum : Nat),
      (fetch pageNum).error.isSome = true →
      pagesLoop fetch (fuel + 1) acc pageNum = some (.inl (fetch pageNum))) ∧
    api_get_user_effective_permissions trivialFetcher errorPage2Fetch
        "acct" "u1" "account" none 5 =
      .page { error := some "boom", total := some 3 } ∧
    api_get_group_effective_permissions g1Fetcher errorPage2Fetch
        "acct" "g1" "account" none 5 =
      .page { error := some "boom", total := some 3 } := by
  refine ⟨?_, by decide, by decide⟩
  intro α fetch fuel acc pageNum herr
  simp only [pagesLoop, herr, if_true]

theorem pagination_abort_on_error_witness :
    pagesLoop errorPage2Fetch (3 + 1) ["x"] 2 =
      some (.inl (errorPage2Fetch 2)) :=
  pagination_abort_on_error.1 String errorPage2Fetch 3 ["x"] 2 (by decide)

/-- C9: whenever an all-pages adapter call completes with a success record,
the reported `total` is the length of the accumulated `effectivePermissions`
list — not the server-reported `total` field. -/
theorem api_total_matches_length :
    (∀ (α : Type) (f : Fetcher) (fetch : Nat → PageResult α)
        (acct uid lt : String) (li : Option String) (fuel : Nat)
        (eid et ltype lid : String) (eps : List α) (tot : Nat),
      api_get_user_effective_permissions f fetch acct uid lt li fuel =
        .ok eid et ltype lid eps tot → tot = eps.length) ∧
    (∀ (α : Type) (f : Fetcher) (fetch : Nat → PageResult α)
        (acct gid lt : String) (li : Option String) (fuel : Nat)
        (eid et ltype lid : String) (eps : List α) (tot : Nat),
      api_get_group_effective_permissions f fetch acct gid lt li fuel =
        .ok eid et ltype lid eps tot → tot = eps.length) := by
  constructor
  · intro α f fetch acct uid lt li fuel eid et ltype lid eps tot h
    unfold api_get_user_effective_permissions at h
    repeat' split at h
    all_goals cases h
    all_goals rfl
  · intro α f fetch acct gid lt li fuel eid et ltype lid eps tot h
    unfold api_get_group_effective_permissions at h
    repeat' split at h
    all_goals cases h
    all_goals rfl

theorem api_total_matches_length_witness :
    2 = (["a", "b"] : List String).length :=
  api_total_matches_length.1 String trivialFetcher shortPagesFetch "acct" "u1"
    "account" none 5 "u1" "user" "account" "acct" ["a", "b"] 2 (by decide)

/-! ### Sorting and set lemmas for the matrix builders -/

theorem mem_insertAsc (x a : String) (l : List String) :
    a ∈ insertAsc x l ↔ a = x ∨ a ∈ l := by
  induction l with
  | nil => simp [insertAsc]
  | cons y ys ih =>
    by_cases h : x ≤ y
    · simp [insertAsc, h, List.mem_cons]
    · simp only [insertAsc, if_neg h, List.mem_cons, ih]
      tauto

theorem sorted_insertAsc (x : String) (l : List String)
    (hl : l.Pairwise (· ≤ ·)) : (insertAsc x l).Pairwise (· ≤ ·) := by
  induction l with
  | nil => simp [insertAsc]
  | cons y ys ih =>
    rcases List.pairwise_cons.mp hl with ⟨hy, hys⟩
    by_cases h : x ≤ y
    · rw [insertAsc, if_pos h]
      refine List.pairwise_cons.mpr ⟨?_, hl⟩
      intro b hb
      rcases List.mem_cons.mp hb with rfl | hb
      · exact h
      · exact le_trans h (hy b hb)
    · rw [insertAsc, if_neg h]
      refine List.pairwise_cons.mpr ⟨?_, ih hys⟩
      intro b hb
      rcases (mem_insertAsc x b ys).mp hb with rfl | hb
      · exact le_of_not_le h
      · exact hy b hb

theorem nodup_insertAsc (x : String) (l : List String) (hx : x ∉ l)
    (hl : l.Nodup) : (insertAsc x l).Nodup := by
  induction l with
  | nil => simp [insertAsc]
  | cons y ys ih =>
    rcases List.nodup_cons.mp hl with ⟨hy, hys⟩
    have hxy : x ≠ y := fun hcontra => hx (hcontra ▸ List.mem_cons_self y ys)
    have hxys : x ∉ ys := fun hm => hx (List.mem_cons_of_mem y hm)
    by_cases h : x ≤ y
    · rw [insertAsc, if_pos h]
      exact List.nodup_cons.mpr ⟨hx, hl⟩
    · rw [insertAsc, if_neg h]
      refine List.nodup_cons.mpr ⟨?_, ih hxys hys⟩
      intro hm
      rcases (mem_insertAsc x y ys).mp hm with hyx | hm
      · exact hxy hyx.symm
      · exact hy hm

theorem mem_sortAsc (a : String) (l : List String) : a ∈ sortAsc l ↔ a ∈ l := by
  induction l with
  | nil => simp [sortAsc]
  | cons x xs ih => simp [sortAsc, mem_insertAsc, ih]

theorem sorted_sortAsc (l : List String) : (sortAsc l).Pairwise (· ≤ ·) := by
  induction l with
  | nil => simp [sortAsc]
  | cons x xs ih => exact sorted_insertAsc x _ ih

theorem nodup_sortAsc (l : List String) (h : l.Nodup) : (sortAsc l).Nodup := by
  induction l with
  | nil => simp [sortAsc]
  | cons x xs ih =>
    rcases List.nodup_cons.mp h with ⟨hx, hxs⟩
    exact nodup_insertAsc x _ (fun hm => hx ((mem_sortAsc x xs).mp hm)) (ih hxs)

theorem strict_sorted_sortAsc (l : List String) (h : l.Nodup) :
    (sortAsc l).Pairwise (· < ·) := by
  exact ((sorted_sortAsc l).and (nodup_sortAsc l h)).imp fun hab =>
    lt_of_le_of_ne hab.1 hab.2

theorem nodup_insertSet (l : List String) (x : String) (h : l.Nodup) :
    (insertSet l x).Nodup := by
  unfold insertSet
  by_cases hc : l.contains x = true
  · rw [if_pos hc]
    exact h
  · rw [if_neg hc]
    have hx : x ∉ l := fun hm => hc (List.elem_iff.mpr hm)
    simp [List.nodup_append, h, hx]

theorem nodup_foldl_insertSet (keys : List String) :
    ∀ acc : List String, acc.Nodup → (keys.foldl insertSet acc).Nodup := by
  induction keys with
  | nil => exact fun acc h => h
  | cons k ks ih => exact fun acc h => ih _ (nodup_insertSet acc k h)

theorem nodup_policyAllPerms (f : Fetcher) : (policyAllPerms f).Nodup := by
  unfold policyAllPerms
  suffices hgen : ∀ (ps : List PolicyRec) (acc : List String), acc.Nodup →
      (ps.foldl (fun s p => (policyKeys f p).foldl insertSet s) acc).Nodup from
    hgen _ [] (by simp)
  intro ps
  induction ps with
  | nil => exact fun acc h => h
  | cons p ps ih => exact fun acc h => ih _ (nodup_foldl_insertSet _ _ h)

theorem dictUpd_fresh {β : Type} (l : List (String × β)) (k : String) (v : β)
    (h : k ∉ l.map (·.1)) : dictUpd l k v = l ++ [(k, v)] := by
  unfold dictUpd
  have hany : ¬ l.any (fun kv => kv.1 == k) = true := by
    intro hc
    rcases List.any_eq_true.mp hc with ⟨kv, hkv, hbeq⟩
    exact h (List.mem_map.mpr ⟨kv, hkv, eq_of_beq hbeq⟩)
  rw [if_neg hany]

theorem foldl_dictUpd_keys {γ β : Type} (key : γ → String) (val : γ → β) :
    ∀ (ps : List γ) (acc : List (String × β)),
      (acc.map (·.1) ++ ps.map key).Nodup →
      (ps.foldl (fun d p => dictUpd d (key p) (val p)) acc).map (·.1) =
        acc.map (·.1) ++ ps.map key := by
  intro ps
  induction ps with
  | nil =>
    intro acc _
    simp
  | cons p ps ih =>
    intro acc h
    have hfresh : key p ∉ acc.map (·.1) := fun hmem =>
      (List.nodup_append.mp h).2.2 hmem (List.mem_cons_self _ _)
    simp only [List.foldl_cons]
    rw [dictUpd_fresh acc (key p) (val p) hfresh]
    have hnodup : ((acc ++ [(key p, val p)]).map (·.1) ++ ps.map key).Nodup := by
      simpa [List.append_assoc] using h
    rw [ih _ hnodup]
    simp [List.append_assoc]

/-- C7 (amended): `generate_policy_matrix` returns a permissions list sorted
strictly ascending (hence with no duplicate keys) and one boolean per
permission column in every row; the rows are keyed by policy *name*, so when
the listed policy names are pairwise distinct there is one row per listed
policy in listing order, but a duplicated name collapses into a single row. -/
theorem policy_matrix_shape :
    (∀ f : Fetcher, (generate_policy_matrix f).permissions.Pairwise (· < ·)) ∧
    (∀ f : Fetcher, ∀ row ∈ (generate_policy_matrix f).matrix,
      row.cells.length = (generate_policy_matrix f).permissions.length) ∧
    (∀ f : Fetcher, (f.listPolicies.map fun p => p.name.getD "").Nodup →
      (generate_policy_matrix f).matrix.map (·.name) =
        f.listPolicies.map fun p => p.name.getD "") := by
  refine ⟨?_, ?_, ?_⟩
  · intro f
    exact strict_sorted_sortAsc _ (nodup_policyAllPerms f)
  · intro f row hrow
    rcases List.mem_map.mp hrow with ⟨kv, _, rfl⟩
    simp [generate_policy_matrix]
  · intro f h
    have hmat : (generate_policy_matrix f).matrix =
        (policyDict f).map (fun kv =>
          ({ name := kv.1, uuid := kv.2.1,
             cells := (sortAsc (policyAllPerms f)).map fun perm =>
               kv.2.2.contains perm } : MatrixRow)) := rfl
    rw [hmat, List.map_map]
    have hcomp : ((fun r : MatrixRow => r.name) ∘
        fun kv : String × String × List String =>
          ({ name := kv.1, uuid := kv.2.1,
             cells := (sortAsc (policyAllPerms f)).map fun perm =>
               kv.2.2.contains perm } : MatrixRow)) =
        fun kv : String × String × List String => kv.1 := rfl
    rw [hcomp]
    unfold policyDict
    have hk := foldl_dictUpd_keys (fun p : PolicyRec => p.name.getD "")
      (fun p : PolicyRec =>
        (p.uuid.getD "", (policyKeys f p).foldl insertSet []))
      f.listPolicies [] (by simpa using h)
    simpa using hk

theorem policy_matrix_shape_witness :
    (generate_policy_matrix twoPolicyFetcher).matrix.map (·.name) =
      twoPolicyFetcher.listPolicies.map (fun p => p.name.getD "") :=
  policy_matrix_shape.2.2 twoPolicyFetcher (by decide)

/-- C7 counterexample: with two listed policies sharing the name `p`, the
matrix has a single row (the dict is keyed by name), not one row per listed
policy. -/
theorem policy_matrix_row_per_policy_cex :
    dupNameFetcher.listPolicies.length = 2 ∧
    (generate_policy_matrix dupNameFetcher).matrix.length = 1 := by
  constructor
  · decide
  · decide

end DtIam
